import Mathlib

/-!
Verification of the real-time messaging subsystem of the fitness-coaching
backend: the durable chat-message store (`src/models/ChatMessage.ts`), the
REST chat controller (`src/controllers/chatController.ts`) and the socket
gateway (`SocketService`).  The document store is embedded as a list of
message records in insertion order together with the next store-assigned
identifier; the socket layer's connection map, which the source keeps as a
`Map` from user id to socket id, is embedded as an association list.
-/

namespace TuPlan

/-- The `messageType` enum of the chat-message schema: `text | image | file`. -/
inductive MessageType
  | text
  | image
  | file
deriving DecidableEq

/-- JS `String.prototype.trim` on the character list: drop whitespace from
both ends. -/
def trimChars (l : List Char) : List Char :=
  ((l.dropWhile Char.isWhitespace).reverse.dropWhile Char.isWhitespace).reverse

/-- JS `String.prototype.trim`, the semantics of the schema `trim: true`
setter on `message`. -/
def jsTrim (s : String) : String :=
  ⟨trimChars s.data⟩

/-- One document of the `ChatMessage` collection.  `id` is the
store-assigned identifier, strictly increasing with insertion order;
`createdAt` is the `timestamps: true` creation time. -/
structure ChatMessage where
  id : Nat
  senderId : Nat
  receiverId : Nat
  message : String
  messageType : MessageType
  attachments : List String
  isRead : Bool
  readAt : Option Nat
  createdAt : Nat
deriving DecidableEq

/-- The distinct validation failures of `chatMessageSchema`: the `required`
and `maxlength` options on `message`, the attachment-URL validator, and the
three checks of the content `pre` save hook. -/
inductive SaveError
  | messageRequired
  | messageTooLong
  | invalidAttachmentUrl
  | textContentRequired
  | attachmentsRequired
  | selfMessage
deriving DecidableEq

/-- The attachment validator `/^https?:\/\/.+/.test(value)`. -/
def validAttachmentUrl (s : String) : Bool :=
  (s.startsWith (r"http://") && 7 < s.length) ||
    (s.startsWith (r"https://") && 8 < s.length)

/-- Validation performed by `save()` on a new chat message: mongoose schema
validation (`required` rejects the empty string, `maxlength: 2000`, the
attachment URL validator) followed by the content `pre` save hook (text
messages need content, image and file messages need attachments, and
self-messaging is rejected).  The document's `message` field already holds
the trimmed value, the `trim: true` setter having run on assignment. -/
def validateChatMessage (m : ChatMessage) : Option SaveError :=
  if m.message.length = 0 then some SaveError.messageRequired
  else if 2000 < m.message.length then some SaveError.messageTooLong
  else if !(m.attachments.all validAttachmentUrl) then some SaveError.invalidAttachmentUrl
  else if m.messageType = MessageType.text ∧ (jsTrim m.message).length = 0 then
    some SaveError.textContentRequired
  else if (m.messageType = MessageType.image ∨ m.messageType = MessageType.file) ∧
      m.attachments = [] then some SaveError.attachmentsRequired
  else if m.senderId = m.receiverId then some SaveError.selfMessage
  else none

/-- The durable message store: the `chatmessages` collection as the ordered
list of documents in insertion order, plus the next store-assigned id. -/
structure Store where
  docs : List ChatMessage
  nextId : Nat
deriving DecidableEq

/-- `new ChatMessage({...}); await newMessage.save()`: build the document
(with the trimmed body, `isRead` defaulting to `false`, `readAt` to `null`),
validate it, and append it to the collection. -/
def Store.append (s : Store) (sender receiver : Nat) (body : String)
    (mt : MessageType) (atts : List String) (now : Nat) :
    Except SaveError (Store × ChatMessage) :=
  let m : ChatMessage :=
    { id := s.nextId, senderId := sender, receiverId := receiver,
      message := jsTrim body, messageType := mt, attachments := atts,
      isRead := false, readAt := none, createdAt := now }
  match validateChatMessage m with
  | some e => Except.error e
  | none => Except.ok ({ docs := s.docs ++ [m], nextId := s.nextId + 1 }, m)

/-- The `updateMany` filter of `markAsRead`: unread messages from `sender`
to `receiver`. -/
def unreadFromTo (sender receiver : Nat) (m : ChatMessage) : Bool :=
  m.senderId == sender && m.receiverId == receiver && m.isRead == false

/-- Effect of the `markAsRead` `updateMany` on a single document: matching
documents get `isRead := true, readAt := now`, all others are untouched. -/
def markAsReadDoc (sender receiver now : Nat) (m : ChatMessage) : ChatMessage :=
  if unreadFromTo sender receiver m then { m with isRead := true, readAt := some now }
  else m

/-- `chatMessageSchema.statics.markAsRead` (also the inline `updateMany` of
the controller `markAsRead` and of the socket `handleMarkAsRead`): set
`isRead: true, readAt: now` on every unread message from `sender` to
`receiver`; the returned count is `modifiedCount`. -/
def Store.markAsRead (s : Store) (sender receiver now : Nat) : Store × Nat :=
  ({ s with docs := s.docs.map (markAsReadDoc sender receiver now) },
   (s.docs.filter (unreadFromTo sender receiver)).length)

/-- The instance method `markAsRead`: set both read fields unless the
message is already read. -/
def ChatMessage.markOneAsRead (m : ChatMessage) (now : Nat) : ChatMessage :=
  if m.isRead then m else { m with isRead := true, readAt := some now }

/-- The second `pre` save hook: when `isRead` was modified to `true` and
`readAt` is still unset, stamp `readAt`. -/
def fixReadAt (modifiedIsRead : Bool) (now : Nat) (m : ChatMessage) : ChatMessage :=
  if modifiedIsRead && m.isRead && m.readAt == none then { m with readAt := some now }
  else m

/-- Descending `createdAt`, the `sort({ createdAt: -1 })` key: `a` comes no
later than `b` when `b.createdAt ≤ a.createdAt`. -/
def msgGE (a b : ChatMessage) : Prop :=
  b.createdAt ≤ a.createdAt

instance : DecidableRel msgGE := fun a b => Nat.decLe b.createdAt a.createdAt

instance : IsTotal ChatMessage msgGE :=
  ⟨fun a b => Nat.le_total b.createdAt a.createdAt⟩

instance : IsTrans ChatMessage msgGE :=
  ⟨fun _ _ _ hab hbc => Nat.le_trans hbc hab⟩

/-- The model of `.sort({ createdAt: -1 })` over the collection: a stable
sort by descending `createdAt` of the documents in insertion order. -/
def sortByCreatedAtDesc (l : List ChatMessage) : List ChatMessage :=
  l.insertionSort msgGE

/-- The `$or` pair filter of the conversation queries. -/
def betweenPair (a b : Nat) (m : ChatMessage) : Bool :=
  (m.senderId == a && m.receiverId == b) || (m.senderId == b && m.receiverId == a)

/-- `chatMessageSchema.statics.findConversation`: the pair's messages sorted
by `createdAt` descending, with `skip`/`limit` pagination. -/
def Store.findConversation (s : Store) (a b : Nat) (limit skip : Nat) : List ChatMessage :=
  ((sortByCreatedAtDesc (s.docs.filter (betweenPair a b))).drop skip).take limit

/-- What the controller `getMessages` produces: the page of messages (in
chronological order, after the final `reverse()`), the total count, and the
store after the read-marking `updateMany` side effect. -/
structure GetMessagesResult where
  data : List ChatMessage
  total : Nat
  store : Store
deriving DecidableEq

/-- The controller `getMessages`: fetch the conversation page sorted by
`createdAt` descending with `skip = (page-1)*limit`, count the total, run
`updateMany` marking every unread message from the partner to the current
user as read, and return the page reversed into chronological order.  The
returned documents were fetched before the update ran. -/
def getMessages (s : Store) (currentUserId partnerId : Nat) (page limit now : Nat) :
    GetMessagesResult :=
  let convo := s.docs.filter (betweenPair currentUserId partnerId)
  let pageMsgs := ((sortByCreatedAtDesc convo).drop ((page - 1) * limit)).take limit
  { data := pageMsgs.reverse,
    total := convo.length,
    store := (s.markAsRead partnerId currentUserId now).1 }

/-- Outcome of the `deleteMessage` controller. -/
inductive DeleteOutcome
  | notFound
  | forbidden
  | deleted
deriving DecidableEq

/-- The controller `deleteMessage`: look the message up by id (404 when
absent), reject requesters other than the sender (403, nothing changes),
otherwise `findByIdAndDelete` removes the document. -/
def Store.deleteMessage (s : Store) (messageId requesterId : Nat) : Store × DeleteOutcome :=
  match s.docs.find? (fun m => m.id == messageId) with
  | none => (s, DeleteOutcome.notFound)
  | some m =>
    if m.senderId != requesterId then (s, DeleteOutcome.forbidden)
    else ({ s with docs := s.docs.eraseP (fun m2 => m2.id == messageId) },
          DeleteOutcome.deleted)

/-- The `UserRole` enum. -/
inductive UserRole
  | trainer
  | user
deriving DecidableEq

/-- The slice of the `User` document the chat subsystem reads. -/
structure User where
  id : Nat
  role : UserRole
  trainerId : Option Nat
  isActive : Bool
  firstName : String
  lastName : String
deriving DecidableEq

/-- `User.findById`. -/
def findUser (users : List User) (userId : Nat) : Option User :=
  users.find? (fun u => u.id == userId)

/-- `SocketService.canUsersChat`: both users must exist and one must be the
other's assigned trainer (`trainerId` edge between a TRAINER and a USER). -/
def canUsersChat (users : List User) (userId1 userId2 : Nat) : Bool :=
  match findUser users userId1, findUser users userId2 with
  | some u1, some u2 =>
    if u1.role == UserRole.trainer && u2.role == UserRole.user then
      u2.trainerId == some userId1
    else if u1.role == UserRole.user && u2.role == UserRole.trainer then
      u1.trainerId == some userId2
    else false
  | _, _ => false

/-- The spec's Relationship predicate: users `a` and `b` may chat iff both
exist and one is the other's assigned trainer. -/
def isLinked (users : List User) (a b : Nat) : Bool :=
  match findUser users a, findUser users b with
  | some ua, some ub =>
    (ua.role == UserRole.trainer && ub.role == UserRole.user && ub.trainerId == some a) ||
      (ua.role == UserRole.user && ub.role == UserRole.trainer && ua.trainerId == some b)
  | _, _ => false

/-- The projection of the `$cond` stage: the other participant of a message
involving `userId`. -/
def partnerOf (userId : Nat) (m : ChatMessage) : Nat :=
  if m.senderId == userId then m.receiverId else m.senderId

/-- The `$match` stage of the conversations aggregation. -/
def involves (userId : Nat) (m : ChatMessage) : Bool :=
  m.senderId == userId || m.receiverId == userId

/-- Distinct keys of a `$group` stage in order of first appearance. -/
def firstOccs : List Nat → List Nat
  | [] => []
  | x :: xs => x :: (firstOccs xs).filter (fun y => y != x)

/-- One row of the conversations aggregation output. -/
structure ConversationSummary where
  partnerId : Nat
  lastMessage : ChatMessage
  unreadCount : Nat
deriving DecidableEq

/-- Descending last-message time, the key of the final `$sort` stage. -/
def summGE (a b : ConversationSummary) : Prop :=
  b.lastMessage.createdAt ≤ a.lastMessage.createdAt

instance : DecidableRel summGE :=
  fun a b => Nat.decLe b.lastMessage.createdAt a.lastMessage.createdAt

instance : IsTotal ConversationSummary summGE :=
  ⟨fun a b => Nat.le_total b.lastMessage.createdAt a.lastMessage.createdAt⟩

instance : IsTrans ConversationSummary summGE :=
  ⟨fun _ _ _ hab hbc => Nat.le_trans hbc hab⟩

/-- One `$group` row joined with its `$lookup`ed partner: `lastMessage` is
the `$first` document of the `createdAt`-descending sort restricted to
partner `p`, `unreadCount` sums the unread-to-me flags over the group; the
row is dropped (`$unwind` of an empty lookup) when partner `p` has no user
document. -/
def convEntry (docs : List ChatMessage) (users : List User) (userId p : Nat) :
    Option ConversationSummary :=
  match findUser users p,
    (sortByCreatedAtDesc (docs.filter (involves userId))).find?
      (fun m => partnerOf userId m == p) with
  | some _, some lm =>
    some { partnerId := p, lastMessage := lm,
           unreadCount := ((docs.filter (involves userId)).filter (fun m =>
             partnerOf userId m == p && m.receiverId == userId &&
               m.isRead == false)).length }
  | _, _ => none

/-- All `$group` rows: one per distinct partner of the user's messages. -/
def convEntries (docs : List ChatMessage) (users : List User) (userId : Nat) :
    List ConversationSummary :=
  (firstOccs ((sortByCreatedAtDesc (docs.filter (involves userId))).map
    (partnerOf userId))).filterMap (convEntry docs users userId)

/-- The conversations aggregation pipeline (`getConversations` controller and
`statics.getRecentConversations`): `$match` the user's messages, compute the
partner, `$sort` by `createdAt` descending, `$group` by partner taking the
first (most recent) message and summing the unread-to-me flags, `$lookup`
the partner user and `$unwind` (dropping partners with no user document),
`$sort` by last-message time descending, `$limit`. -/
def getRecentConversations (docs : List ChatMessage) (users : List User)
    (userId limit : Nat) : List ConversationSummary :=
  ((convEntries docs users userId).insertionSort summGE).take limit

/-- Socket error payloads emitted by `handleSendMessage`. -/
inductive SocketErrorMsg
  | chatNotAllowed
  | sendFailed
deriving DecidableEq

/-- Where a socket.io emit goes: one socket, or an `io.emit` broadcast. -/
inductive Target
  | socket (socketId : Nat)
  | broadcast
deriving DecidableEq

/-- The server-to-client event names used by `SocketService`. -/
inductive EventName
  | error
  | messageSent
  | newMessage
  | messagesRead
  | userTyping
  | userStatus
  | notification
deriving DecidableEq

/-- Event payloads. -/
inductive Payload
  | errorInfo (e : SocketErrorMsg)
  | sentAck (m : ChatMessage)
  | msg (m : ChatMessage)
  | notifInfo (senderId : Nat) (senderName : String) (preview : String)
  | statusInfo (userId : Nat) (online : Bool) (timestamp : Nat)
  | readInfo (readerId : Nat) (count : Nat)
deriving DecidableEq

/-- One emitted event. -/
structure Emit where
  target : Target
  name : EventName
  payload : Payload
deriving DecidableEq

/-- The state `SocketService` closes over: the `connectedUsers` map
(`userId -> socketId`, kept as an association list with unique keys), the
user collection and the message store. -/
structure GatewayState where
  connectedUsers : List (Nat × Nat)
  users : List User
  store : Store
deriving DecidableEq

/-- `connectedUsers.get(userId)`. -/
def lookupConn (conns : List (Nat × Nat)) (userId : Nat) : Option Nat :=
  (conns.find? (fun p => p.fst == userId)).map Prod.snd

/-- `connectedUsers.set(userId, socketId)`: replace the entry in place, or
add one at the end. -/
def setConn : List (Nat × Nat) → Nat → Nat → List (Nat × Nat)
  | [], u, s => [(u, s)]
  | (k, v) :: rest, u, s =>
    if k == u then (u, s) :: rest else (k, v) :: setConn rest u s

/-- `connectedUsers.delete(userId)`. -/
def removeConn : List (Nat × Nat) → Nat → List (Nat × Nat)
  | [], _ => []
  | (k, v) :: rest, u =>
    if k == u then rest else (k, v) :: removeConn rest u

/-- `emitToUser`: look the user's socket up in `connectedUsers` and emit to
it; no-op when the user has no registered socket. -/
def emitToUser (conns : List (Nat × Nat)) (userId : Nat) (name : EventName)
    (p : Payload) : List Emit :=
  match lookupConn conns userId with
  | some sid => [{ target := Target.socket sid, name := name, payload := p }]
  | none => []

/-- `broadcastUserStatus`: an `io.emit('user_status', ...)` broadcast. -/
def broadcastUserStatus (userId : Nat) (online : Bool) (now : Nat) : Emit :=
  { target := Target.broadcast, name := EventName.userStatus,
    payload := Payload.statusInfo userId online now }

/-- The `connection` handler: `connectedUsers.set(userId, socket.id)` and an
unconditional `online` status broadcast. -/
def handleConnection (st : GatewayState) (userId socketId now : Nat) :
    GatewayState × List Emit :=
  ({ st with connectedUsers := setConn st.connectedUsers userId socketId },
   [broadcastUserStatus userId true now])

/-- The `disconnect` handler: `connectedUsers.delete(userId)` and an
unconditional `offline` status broadcast. -/
def handleDisconnect (st : GatewayState) (userId now : Nat) :
    GatewayState × List Emit :=
  ({ st with connectedUsers := removeConn st.connectedUsers userId },
   [broadcastUserStatus userId false now])

/-- The populated sender display name used by the notification payload. -/
def senderDisplayName (users : List User) (userId : Nat) : String :=
  match findUser users userId with
  | some u => u.firstName ++ " " ++ u.lastName
  | none => ""

/-- The ≤50-character body preview of the notification payload (computed
from the raw, untrimmed payload body). -/
def previewOf (body : String) : String :=
  if 50 < body.length then body.take 50 ++ "..." else body

/-- `SocketService.handleSendMessage`: authorization via `canUsersChat`
(failure emits a scoped error to the sender's socket only), then `save`
(failure lands in the catch block, again an error to the sender only), then
a `message_sent` ack to the sender and `new_message` and `notification`
emits to the receiver's registered socket, if any. -/
def handleSendMessage (st : GatewayState) (senderId socketId receiverId : Nat)
    (body : String) (mt : MessageType) (atts : List String) (now : Nat) :
    GatewayState × List Emit :=
  if !(canUsersChat st.users senderId receiverId) then
    (st, [{ target := Target.socket socketId, name := EventName.error,
            payload := Payload.errorInfo SocketErrorMsg.chatNotAllowed }])
  else
    match st.store.append senderId receiverId body mt atts now with
    | Except.error _ =>
      (st, [{ target := Target.socket socketId, name := EventName.error,
              payload := Payload.errorInfo SocketErrorMsg.sendFailed }])
    | Except.ok (store2, m) =>
      ({ st with store := store2 },
       { target := Target.socket socketId, name := EventName.messageSent,
         payload := Payload.sentAck m } ::
       (emitToUser st.connectedUsers receiverId EventName.newMessage (Payload.msg m) ++
        emitToUser st.connectedUsers receiverId EventName.notification
          (Payload.notifInfo senderId (senderDisplayName st.users senderId)
            (previewOf body))))

/-- The read-state invariant of §3: a read message has a `readAt` stamp and
an unread one has none. -/
def ReadInv (m : ChatMessage) : Prop :=
  (m.isRead = true → m.readAt ≠ none) ∧ (m.isRead = false → m.readAt = none)

instance (m : ChatMessage) : Decidable (ReadInv m) :=
  inferInstanceAs (Decidable (_ ∧ _))

/-- The stable total order the store's listing actually realises: strictly
newer first, ties in `createdAt` resolved by insertion order (smaller
store-assigned id first). -/
def msgBefore (a b : ChatMessage) : Prop :=
  b.createdAt < a.createdAt ∨ (a.createdAt = b.createdAt ∧ a.id < b.id)

instance : DecidableRel msgBefore :=
  fun _ _ => inferInstanceAs (Decidable (_ ∨ _))

/-- A trainer (id 1) used by the concrete instantiations. -/
def demoTrainer : User :=
  { id := 1, role := UserRole.trainer, trainerId := none, isActive := true,
    firstName := "Ana", lastName := "Diaz" }

/-- A client (id 2) assigned to trainer 1. -/
def demoClient : User :=
  { id := 2, role := UserRole.user, trainerId := some 1, isActive := true,
    firstName := "Luis", lastName := "Rey" }

/-- A client (id 3) with no assigned trainer. -/
def demoStranger : User :=
  { id := 3, role := UserRole.user, trainerId := none, isActive := true,
    firstName := "Eva", lastName := "Sol" }

/-- The demo user collection. -/
def demoUsers : List User :=
  [demoTrainer, demoClient, demoStranger]

/-- A gateway state in which only client 2 is connected (socket 30). -/
def demoGw : GatewayState :=
  { connectedUsers := [(2, 30)], users := demoUsers, store := { docs := [], nextId := 0 } }

/-- A gateway state with nobody connected. -/
def demoGw0 : GatewayState :=
  { connectedUsers := [], users := demoUsers, store := { docs := [], nextId := 0 } }

/-- An unread text message 1 → 2, id 0, created at time 5. -/
def demoMsgA : ChatMessage :=
  { id := 0, senderId := 1, receiverId := 2, message := "hola", messageType := MessageType.text,
    attachments := [], isRead := false, readAt := none, createdAt := 5 }

/-- A second unread text message 1 → 2, id 1, created at the same
millisecond 5. -/
def demoMsgB : ChatMessage :=
  { id := 1, senderId := 1, receiverId := 2, message := "buenas", messageType := MessageType.text,
    attachments := [], isRead := false, readAt := none, createdAt := 5 }

/-! ### Helper lemmas -/

theorem canUsersChat_eq_isLinked (users : List User) (a b : Nat) :
    canUsersChat users a b = isLinked users a b := by
  unfold canUsersChat isLinked
  cases findUser users a with
  | none => rfl
  | some ua =>
    cases findUser users b with
    | none => rfl
    | some ub => cases hra : ua.role <;> cases hrb : ub.role <;> simp [hra, hrb]

theorem lookupConn_nil (u : Nat) : lookupConn [] u = none := rfl

theorem lookupConn_cons (k v u : Nat) (rest : List (Nat × Nat)) :
    lookupConn ((k, v) :: rest) u = if k = u then some v else lookupConn rest u := by
  by_cases h : k = u
  · have hb : (k == u) = true := by simpa using h
    simp [lookupConn, List.find?, hb, h]
  · have hb : (k == u) = false := by simpa using h
    simp [lookupConn, List.find?, hb, h]

theorem setConn_cons (k v u s : Nat) (rest : List (Nat × Nat)) :
    setConn ((k, v) :: rest) u s =
      if k = u then (u, s) :: rest else (k, v) :: setConn rest u s := by
  by_cases h : k = u <;> simp [setConn, h]

theorem removeConn_cons (k v u : Nat) (rest : List (Nat × Nat)) :
    removeConn ((k, v) :: rest) u =
      if k = u then rest else (k, v) :: removeConn rest u := by
  by_cases h : k = u <;> simp [removeConn, h]

theorem lookupConn_setConn (conns : List (Nat × Nat)) (u s u2 : Nat) :
    lookupConn (setConn conns u s) u2 =
      if u2 = u then some s else lookupConn conns u2 := by
  induction conns with
  | nil =>
    show lookupConn [(u, s)] u2 = if u2 = u then some s else lookupConn [] u2
    rw [lookupConn_cons, lookupConn_nil]
    by_cases h : u = u2
    · rw [if_pos h, if_pos h.symm]
    · rw [if_neg h, if_neg (fun hh => h hh.symm)]
  | cons kv rest ih =>
    obtain ⟨k, v⟩ := kv
    rw [setConn_cons]
    by_cases hk : k = u
    · subst hk
      rw [if_pos rfl, lookupConn_cons, lookupConn_cons]
      by_cases h : k = u2
      · rw [if_pos h, if_pos h.symm]
      · rw [if_neg h, if_neg (fun hh => h hh.symm), if_neg h]
    · rw [if_neg hk, lookupConn_cons, ih, lookupConn_cons]
      by_cases h1 : k = u2
      · by_cases h2 : u2 = u
        · exact absurd (h1.trans h2) hk
        · simp [h1, h2]
      · by_cases h2 : u2 = u <;> simp [h1, h2, hk]

theorem lookupConn_removeConn (conns : List (Nat × Nat)) (u u2 : Nat)
    (hnd : (conns.map Prod.fst).Nodup) :
    lookupConn (removeConn conns u) u2 =
      if u2 = u then none else lookupConn conns u2 := by
  induction conns with
  | nil => by_cases h : u2 = u <;> simp [removeConn, lookupConn_nil, h]
  | cons kv rest ih =>
    obtain ⟨k, v⟩ := kv
    rw [List.map_cons, List.nodup_cons] at hnd
    rw [removeConn_cons]
    by_cases hk : k = u
    · subst hk
      by_cases h : u2 = k
      · subst h
        rw [if_pos rfl, if_pos rfl]
        have hnone : List.find? (fun p => p.fst == u2) rest = none :=
          List.find?_eq_none.mpr (by
            intro p hp hbeq
            have hps : p.fst = u2 := by simpa using hbeq
            have hmem : p.fst ∈ List.map Prod.fst rest := List.mem_map_of_mem Prod.fst hp
            rw [hps] at hmem
            exact hnd.1 hmem)
        unfold lookupConn
        rw [hnone]
        rfl
      · rw [if_pos rfl, if_neg h, lookupConn_cons, if_neg (fun hh => h hh.symm)]
    · rw [if_neg hk, lookupConn_cons, ih hnd.2, lookupConn_cons]
      by_cases h1 : k = u2
      · by_cases h2 : u2 = u
        · exact absurd (h1.trans h2) hk
        · simp [h1, h2]
      · by_cases h2 : u2 = u <;> simp [h1, h2, hk]

theorem unreadFromTo_markAsReadDoc (a b t : Nat) (m : ChatMessage) :
    unreadFromTo a b (markAsReadDoc a b t m) = false := by
  unfold markAsReadDoc
  by_cases h : unreadFromTo a b m = true
  · rw [if_pos h]
    unfold unreadFromTo
    simp
  · rw [if_neg h]
    simpa using h

theorem markAsReadDoc_idem (a b t1 t2 : Nat) (m : ChatMessage) :
    markAsReadDoc a b t2 (markAsReadDoc a b t1 m) = markAsReadDoc a b t1 m := by
  have h := unreadFromTo_markAsReadDoc a b t1 m
  conv_lhs => rw [markAsReadDoc]
  rw [if_neg (by simp [h])]

/-! ### C1 -/

/-- C1: a send-message action between users with no trainer-client
relationship always fails with the `ChatNotAllowed` error emitted only to
the sender's own socket; the gateway state (and so the store) is unchanged
and no event of any kind targets the receiver. -/
theorem sendMessage_unlinked_rejected
    (st : GatewayState) (senderId socketId receiverId : Nat) (body : String)
    (mt : MessageType) (atts : List String) (now : Nat)
    (h : isLinked st.users senderId receiverId = false) :
    handleSendMessage st senderId socketId receiverId body mt atts now =
      (st, [{ target := Target.socket socketId, name := EventName.error,
              payload := Payload.errorInfo SocketErrorMsg.chatNotAllowed }]) ∧
    ∀ e ∈ (handleSendMessage st senderId socketId receiverId body mt atts now).2,
      e.target = Target.socket socketId := by
  have hc : canUsersChat st.users senderId receiverId = false := by
    rw [canUsersChat_eq_isLinked]
    exact h
  have hmain : handleSendMessage st senderId socketId receiverId body mt atts now =
      (st, [{ target := Target.socket socketId, name := EventName.error,
              payload := Payload.errorInfo SocketErrorMsg.chatNotAllowed }]) := by
    unfold handleSendMessage
    rw [hc]
    rfl
  refine ⟨hmain, ?_⟩
  intro e he
  rw [hmain] at he
  simp only [List.mem_singleton] at he
  rw [he]

/-- Witness for C1 at concrete unlinked users 1 (a trainer) and 3 (a client
with no assigned trainer). -/
theorem sendMessage_unlinked_rejected_witness :
    isLinked demoGw.users 1 3 = false ∧
    handleSendMessage demoGw 1 10 3 "hola" MessageType.text [] 0 =
      (demoGw, [{ target := Target.socket 10, name := EventName.error,
                  payload := Payload.errorInfo SocketErrorMsg.chatNotAllowed }]) :=
  ⟨by decide,
   (sendMessage_unlinked_rejected demoGw 1 10 3 "hola" MessageType.text [] 0 (by decide)).1⟩

/-! ### C2 -/

/-- C2 counterexample: the registry keeps a single socket id per user, so
registering a second connection (socket 20) for user 1 evicts the first
(socket 10) — the claim that the first handle survives is false. -/
theorem presence_registry_second_connection_evicts :
    (handleConnection (handleConnection demoGw0 1 10 0).1 1 20 1).1.connectedUsers = [(1, 20)] ∧
    ¬ ((1, 10) ∈ (handleConnection (handleConnection demoGw0 1 10 0).1 1 20 1).1.connectedUsers) := by
  decide

/-- C2 amended: the registry maps each user to at most one handle — a second
registration replaces the first — and a successful send delivers the
`new_message` push to at most the single currently-registered handle of the
receiver. -/
theorem presence_single_handle_delivery
    (conns : List (Nat × Nat)) (u s1 s2 : Nat) (st : GatewayState)
    (senderId socketId receiverId : Nat) (body : String) (mt : MessageType)
    (atts : List String) (now : Nat) :
    lookupConn (setConn (setConn conns u s1) u s2) u = some s2 ∧
    ((handleSendMessage st senderId socketId receiverId body mt atts now).2.filter
        (fun e => e.name == EventName.newMessage)).length ≤ 1 ∧
    ∀ e ∈ (handleSendMessage st senderId socketId receiverId body mt atts now).2,
      e.name = EventName.newMessage →
        (lookupConn st.connectedUsers receiverId).isSome = true ∧
        e.target = Target.socket ((lookupConn st.connectedUsers receiverId).getD 0) := by
  refine ⟨by rw [lookupConn_setConn, if_pos rfl], ?_⟩
  unfold handleSendMessage
  by_cases hc : canUsersChat st.users senderId receiverId = true
  · rw [if_neg (by simp [hc])]
    cases happ : Store.append st.store senderId receiverId body mt atts now with
    | error e =>
      refine ⟨by simp, ?_⟩
      intro ev hev hname
      simp only [List.mem_singleton] at hev
      rw [hev] at hname
      simp at hname
    | ok r =>
      obtain ⟨store2, m⟩ := r
      cases hl : lookupConn st.connectedUsers receiverId with
      | none =>
        refine ⟨?_, ?_⟩
        · simp [emitToUser, hl]
        · intro ev hev hname
          simp only [emitToUser, hl, List.nil_append, List.append_nil,
            List.mem_singleton] at hev
          rw [hev] at hname
          simp at hname
      | some sid =>
        refine ⟨?_, ?_⟩
        · simp [emitToUser, hl]
        · intro ev hev hname
          simp only [emitToUser, hl, List.mem_cons, List.mem_append,
            List.mem_singleton, List.not_mem_nil, or_false] at hev
          rcases hev with h1 | h1 | h1 <;> rw [h1] at hname ⊢ <;> simp_all [hl]
  · rw [if_pos (by simp [hc])]
    refine ⟨by simp, ?_⟩
    intro ev hev hname
    simp only [List.mem_singleton] at hev
    rw [hev] at hname
    simp at hname

/-- Witness for C2's amended theorem: with client 2 connected on socket 30,
trainer 1's successful send emits the `new_message` push to socket 30, the
single registered handle. -/
theorem presence_single_handle_delivery_witness :
    ({ target := Target.socket 30, name := EventName.newMessage,
       payload := Payload.msg ⟨0, 1, 2, "hola", MessageType.text, [], false, none, 7⟩ } ∈
      (handleSendMessage demoGw 1 10 2 "hola" MessageType.text [] 7).2) ∧
    ((lookupConn demoGw.connectedUsers 2).isSome = true ∧
      ({ target := Target.socket 30, name := EventName.newMessage,
         payload := Payload.msg ⟨0, 1, 2, "hola", MessageType.text, [], false, none, 7⟩ } : Emit).target =
        Target.socket ((lookupConn demoGw.connectedUsers 2).getD 0)) :=
  ⟨by decide,
   (presence_single_handle_delivery [] 0 0 0 demoGw 1 10 2 "hola" MessageType.text [] 7).2.2
     { target := Target.socket 30, name := EventName.newMessage,
       payload := Payload.msg ⟨0, 1, 2, "hola", MessageType.text, [], false, none, 7⟩ }
     (by decide) (by decide)⟩

/-! ### C3 -/

/-- C3 counterexample: user 1 already has handle 10 registered, yet a second
registration (socket 20) still emits an online presence broadcast — the
claim that such a register emits no presence event is false. -/
theorem presence_event_on_repeat_connection :
    lookupConn (handleConnection demoGw0 1 10 0).1.connectedUsers 1 = some 10 ∧
    (handleConnection (handleConnection demoGw0 1 10 0).1 1 20 1).2 =
      [broadcastUserStatus 1 true 1] ∧
    ¬ ((handleConnection (handleConnection demoGw0 1 10 0).1 1 20 1).2 = []) := by
  decide

/-- C3 amended: every connection emits exactly one online `user_status`
broadcast and every disconnect exactly one offline broadcast, regardless of
the user's other handles; a connection overwrites the user's single registry
entry and a disconnect removes it entirely, other users' entries being
untouched. -/
theorem presence_events_every_connection
    (st : GatewayState) (userId socketId now uid2 : Nat)
    (hnd : (st.connectedUsers.map Prod.fst).Nodup) :
    (handleConnection st userId socketId now).2 = [broadcastUserStatus userId true now] ∧
    (handleDisconnect st userId now).2 = [broadcastUserStatus userId false now] ∧
    lookupConn (handleConnection st userId socketId now).1.connectedUsers uid2 =
      (if uid2 = userId then some socketId else lookupConn st.connectedUsers uid2) ∧
    lookupConn (handleDisconnect st userId now).1.connectedUsers uid2 =
      (if uid2 = userId then none else lookupConn st.connectedUsers uid2) :=
  ⟨rfl, rfl, lookupConn_setConn _ _ _ _, lookupConn_removeConn _ _ _ hnd⟩

/-- Witness for C3's amended theorem on the demo registry. -/
theorem presence_events_every_connection_witness :
    lookupConn (handleConnection demoGw 1 10 0).1.connectedUsers 1 = some 10 ∧
    lookupConn (handleDisconnect demoGw 2 0).1.connectedUsers 2 = none :=
  ⟨by
    have h := (presence_events_every_connection demoGw 1 10 0 1 (by decide)).2.2.1
    simpa using h,
   by
    have h := (presence_events_every_connection demoGw 2 0 0 2 (by decide)).2.2.2
    simpa using h⟩

/-! ### C5 -/

/-- C5: `markAsRead` marks exactly the unread sender→receiver messages and
returns their count; an immediate second invocation matches nothing, so it
returns 0 and leaves the store unchanged (idempotence). -/
theorem markAsRead_idempotent (s : Store) (a b t1 t2 : Nat) :
    (s.markAsRead a b t1).2 = (s.docs.filter (unreadFromTo a b)).length ∧
    ((s.markAsRead a b t1).1.markAsRead a b t2).2 = 0 ∧
    ((s.markAsRead a b t1).1.markAsRead a b t2).1 = (s.markAsRead a b t1).1 := by
  refine ⟨rfl, ?_, ?_⟩
  · show ((s.docs.map (markAsReadDoc a b t1)).filter (unreadFromTo a b)).length = 0
    rw [List.filter_eq_nil_iff.mpr]
    · rfl
    · intro m hm
      rw [List.mem_map] at hm
      obtain ⟨x, hx, rfl⟩ := hm
      simp [unreadFromTo_markAsReadDoc]
  · have hfun : markAsReadDoc a b t2 ∘ markAsReadDoc a b t1 = markAsReadDoc a b t1 :=
      funext fun m => markAsReadDoc_idem a b t1 t2 m
    simp only [Store.markAsRead]
    rw [List.map_map, hfun]

/-! ### C4 -/

/-- C4: every message-mutating operation preserves the read-state invariant:
a freshly appended message is unread with no `readAt`; `markAsRead` (and
hence every `updateMany`-based read path), the instance `markOneAsRead`, the
`readAt` pre-save hook, and `deleteMessage` keep `ReadInv` on every stored
document; no operation ever reverts `isRead` from `true` to `false`, and an
already-read message is never touched again (so `readAt` is written at most
once). -/
theorem read_state_invariant_preserved
    (s : Store) (sender receiver : Nat) (body : String) (mt : MessageType)
    (atts : List String) (now mid req : Nat)
    (hinv : ∀ m ∈ s.docs, ReadInv m) :
    (∀ st2 m2, s.append sender receiver body mt atts now = Except.ok (st2, m2) →
      m2.isRead = false ∧ m2.readAt = none ∧ ∀ m ∈ st2.docs, ReadInv m) ∧
    (∀ m ∈ (s.markAsRead sender receiver now).1.docs, ReadInv m) ∧
    (∀ m : ChatMessage, m.isRead = true → markAsReadDoc sender receiver now m = m) ∧
    (∀ (m : ChatMessage) (t : Nat), m.isRead = true → ChatMessage.markOneAsRead m t = m) ∧
    (∀ m ∈ (s.deleteMessage mid req).1.docs, ReadInv m) ∧
    (∀ (m : ChatMessage) (b2 : Bool) (t : Nat), ReadInv m → ReadInv (fixReadAt b2 t m)) := by
  refine ⟨?_, ?_, ?_, ?_, ?_, ?_⟩
  · intro st2 m2 happ
    unfold Store.append at happ
    cases hv : validateChatMessage
        { id := s.nextId, senderId := sender, receiverId := receiver,
          message := jsTrim body, messageType := mt, attachments := atts,
          isRead := false, readAt := none, createdAt := now } with
    | some e =>
      simp only [hv] at happ
      exact absurd happ (by simp)
    | none =>
      simp only [hv] at happ
      simp only [Except.ok.injEq, Prod.mk.injEq] at happ
      obtain ⟨hst2, hm2⟩ := happ
      refine ⟨by rw [← hm2], by rw [← hm2], ?_⟩
      intro m hm
      rw [← hst2] at hm
      simp only [List.mem_append, List.mem_singleton] at hm
      rcases hm with hm | hm
      · exact hinv m hm
      · rw [hm]
        exact ⟨fun h => by simp at h, fun _ => rfl⟩
  · intro m hm
    rw [Store.markAsRead] at hm
    simp only [List.mem_map] at hm
    obtain ⟨x, hx, rfl⟩ := hm
    unfold markAsReadDoc
    by_cases h : unreadFromTo sender receiver x = true
    · rw [if_pos h]
      exact ⟨fun _ => by simp, fun h2 => by simp at h2⟩
    · rw [if_neg h]
      exact hinv x hx
  · intro m hread
    unfold markAsReadDoc unreadFromTo
    rw [hread]
    simp
  · intro m t hread
    unfold ChatMessage.markOneAsRead
    rw [hread]
    simp
  · intro m hm
    unfold Store.deleteMessage at hm
    split at hm
    · exact hinv m hm
    · split at hm
      · exact hinv m hm
      · exact hinv m ((List.eraseP_sublist s.docs).subset hm)
  · intro m b2 t hm
    unfold fixReadAt
    by_cases h : (b2 && m.isRead && m.readAt == none) = true
    · rw [if_pos h]
      simp only [Bool.and_eq_true] at h
      exact ⟨fun _ => by simp, fun hfalse => by rw [hfalse] at h; simp at h⟩
    · rw [if_neg h]
      exact hm

/-- Witness for C4: the invariant is preserved on a concrete store holding
one unread message, both by `markAsRead` and by `deleteMessage`. -/
theorem read_state_invariant_preserved_witness :
    (∀ m ∈ (Store.markAsRead ⟨[demoMsgA], 1⟩ 1 2 9).1.docs, ReadInv m) ∧
    (∀ m ∈ (Store.deleteMessage ⟨[demoMsgA], 1⟩ 0 1).1.docs, ReadInv m) :=
  ⟨(read_state_invariant_preserved ⟨[demoMsgA], 1⟩ 1 2 "x" MessageType.text [] 9 0 1
      (by decide)).2.1,
   (read_state_invariant_preserved ⟨[demoMsgA], 1⟩ 1 2 "x" MessageType.text [] 9 0 1
      (by decide)).2.2.2.2.1⟩

/-! ### C9 -/

/-- C9: `deleteMessage` fails with not-found when no message has the id;
fails with forbidden leaving the store untouched (the message still present)
when the requester is not the sender; and removes the message — under the
store's unique-id discipline, no document with that id remains — exactly
when the requester is its sender. -/
theorem deleteMessage_ownership (s : Store) (mid req : Nat) :
    (s.docs.find? (fun m => m.id == mid) = none →
      s.deleteMessage mid req = (s, DeleteOutcome.notFound)) ∧
    (∀ m, s.docs.find? (fun m2 => m2.id == mid) = some m → ¬ (m.senderId = req) →
      s.deleteMessage mid req = (s, DeleteOutcome.forbidden) ∧ m ∈ s.docs) ∧
    (∀ m, s.docs.find? (fun m2 => m2.id == mid) = some m → m.senderId = req →
      (s.deleteMessage mid req).2 = DeleteOutcome.deleted ∧
      (s.deleteMessage mid req).1.docs = s.docs.eraseP (fun m2 => m2.id == mid) ∧
      ((s.docs.map ChatMessage.id).Nodup →
        ∀ m2 ∈ (s.deleteMessage mid req).1.docs, ¬ (m2.id = mid))) := by
  refine ⟨?_, ?_, ?_⟩
  · intro hf
    simp [Store.deleteMessage, hf]
  · intro m hf hs
    have hbne : (m.senderId != req) = true := by simpa using hs
    refine ⟨?_, List.mem_of_find?_eq_some hf⟩
    simp [Store.deleteMessage, hf, hbne]
  · intro m hf hs
    have hbne : (m.senderId != req) = false := by simpa using hs
    have hdel : s.deleteMessage mid req =
        ({ s with docs := s.docs.eraseP (fun m2 => m2.id == mid) }, DeleteOutcome.deleted) := by
      simp [Store.deleteMessage, hf, hbne]
    refine ⟨by rw [hdel], by rw [hdel], ?_⟩
    intro hnd m2 hm2
    rw [hdel] at hm2
    have hmem : m ∈ s.docs := List.mem_of_find?_eq_some hf
    have hpm := List.find?_some hf
    obtain ⟨a, l1, l2, hl1, hpa, hsplit, herase⟩ :=
      @List.exists_of_eraseP ChatMessage (fun m2 => m2.id == mid) s.docs m hmem hpm
    rw [herase] at hm2
    have haid : a.id = mid := by simpa using hpa
    rw [List.mem_append] at hm2
    rcases hm2 with hm2 | hm2
    · intro heq
      exact absurd (by simpa using heq : (m2.id == mid) = true) (by simpa using hl1 m2 hm2)
    · intro heq
      rw [hsplit] at hnd
      simp only [List.map_append, List.map_cons] at hnd
      have hnd2 := (List.nodup_append.mp hnd).2.1
      rw [List.nodup_cons] at hnd2
      refine hnd2.1 ?_
      have hmm : m2.id ∈ List.map ChatMessage.id l2 :=
        List.mem_map_of_mem ChatMessage.id hm2
      rw [heq, ← haid] at hmm
      exact hmm

/-- Witness for C9: not-found, forbidden, and deleted outcomes on a concrete
one-message store. -/
theorem deleteMessage_ownership_witness :
    Store.deleteMessage ⟨[demoMsgA], 1⟩ 5 1 = (⟨[demoMsgA], 1⟩, DeleteOutcome.notFound) ∧
    (Store.deleteMessage ⟨[demoMsgA], 1⟩ 0 2 = (⟨[demoMsgA], 1⟩, DeleteOutcome.forbidden) ∧
      demoMsgA ∈ (⟨[demoMsgA], 1⟩ : Store).docs) ∧
    (Store.deleteMessage ⟨[demoMsgA], 1⟩ 0 1).2 = DeleteOutcome.deleted :=
  ⟨(deleteMessage_ownership ⟨[demoMsgA], 1⟩ 5 1).1 (by decide),
   (deleteMessage_ownership ⟨[demoMsgA], 1⟩ 0 2).2.1 demoMsgA (by decide) (by decide),
   ((deleteMessage_ownership ⟨[demoMsgA], 1⟩ 0 1).2.2 demoMsgA (by decide) (by decide)).1⟩

/-! ### C10 -/

/-- C10: fetching conversation history via `getMessages` is not a pure read:
its store effect is exactly the explicit mark-read `updateMany` — every
unread message from the partner to the requester gets `isRead := true,
readAt := now` with all other fields preserved, and every other document
(in particular everything the requester sent to a distinct partner) is left
unchanged. -/
theorem getMessages_marks_partner_messages_read
    (s : Store) (cur par page limit now : Nat) :
    (getMessages s cur par page limit now).store = (s.markAsRead par cur now).1 ∧
    (getMessages s cur par page limit now).store.docs =
      s.docs.map (markAsReadDoc par cur now) ∧
    (∀ m : ChatMessage, unreadFromTo par cur m = true →
      markAsReadDoc par cur now m = { m with isRead := true, readAt := some now }) ∧
    (∀ m : ChatMessage, unreadFromTo par cur m = false → markAsReadDoc par cur now m = m) ∧
    (∀ m : ChatMessage, m.senderId = cur → ¬ (cur = par) → markAsReadDoc par cur now m = m) := by
  refine ⟨rfl, rfl, ?_, ?_, ?_⟩
  · intro m h
    unfold markAsReadDoc
    rw [if_pos h]
  · intro m h
    unfold markAsReadDoc
    rw [if_neg (by simp [h])]
  · intro m hsend hne
    unfold markAsReadDoc
    refine if_neg ?_
    unfold unreadFromTo
    intro hcontra
    simp only [Bool.and_eq_true, beq_iff_eq] at hcontra
    exact hne (hsend.symm.trans hcontra.1.1)

/-- Witness for C10: on a store with one unread message from partner 1 to
user 2, the fetch marks it read exactly as the explicit mark-read would. -/
theorem getMessages_marks_partner_messages_read_witness :
    (getMessages ⟨[demoMsgA], 1⟩ 2 1 1 50 9).store = (Store.markAsRead ⟨[demoMsgA], 1⟩ 1 2 9).1 ∧
    markAsReadDoc 1 2 9 demoMsgA = { demoMsgA with isRead := true, readAt := some 9 } :=
  ⟨(getMessages_marks_partner_messages_read ⟨[demoMsgA], 1⟩ 2 1 1 50 9).1,
   (getMessages_marks_partner_messages_read ⟨[demoMsgA], 1⟩ 2 1 1 50 9).2.2.1
     demoMsgA (by decide)⟩

/-! ### C6 -/

theorem msgBefore_le {a b : ChatMessage} (h : msgBefore a b) :
    b.createdAt ≤ a.createdAt := by
  rcases h with h | ⟨h, _⟩
  · exact Nat.le_of_lt h
  · exact Nat.le_of_eq h.symm

theorem pairwise_orderedInsert_msgBefore (m : ChatMessage) :
    ∀ l : List ChatMessage, l.Pairwise msgBefore → (∀ y ∈ l, m.id < y.id) →
      (List.orderedInsert msgGE m l).Pairwise msgBefore
  | [], _, _ => List.pairwise_singleton _ _
  | x :: xs, hp, hid => by
    rw [List.orderedInsert]
    by_cases h : msgGE m x
    · rw [if_pos h]
      refine List.Pairwise.cons ?_ hp
      intro y hy
      have hle : y.createdAt ≤ m.createdAt := by
        rcases List.mem_cons.mp hy with rfl | hy2
        · exact h
        · exact Nat.le_trans (msgBefore_le ((List.pairwise_cons.mp hp).1 y hy2)) h
      rcases Nat.lt_or_ge y.createdAt m.createdAt with hlt | hge
      · exact Or.inl hlt
      · exact Or.inr ⟨Nat.le_antisymm hge hle, hid y hy⟩
    · rw [if_neg h]
      refine List.Pairwise.cons ?_
        (pairwise_orderedInsert_msgBefore m xs (List.pairwise_cons.mp hp).2
          (fun y hy => hid y (List.mem_cons_of_mem x hy)))
      intro y hy
      rcases (List.mem_orderedInsert msgGE).mp hy with rfl | hy2
      · exact Or.inl (Nat.lt_of_not_le h)
      · exact (List.pairwise_cons.mp hp).1 y hy2

theorem pairwise_sort_msgBefore :
    ∀ l : List ChatMessage, l.Pairwise (fun a b => a.id < b.id) →
      (sortByCreatedAtDesc l).Pairwise msgBefore
  | [], _ => by simp [sortByCreatedAtDesc, List.insertionSort]
  | x :: xs, hp => by
    rw [sortByCreatedAtDesc, List.insertionSort]
    exact pairwise_orderedInsert_msgBefore x _
      (pairwise_sort_msgBefore xs (List.pairwise_cons.mp hp).2)
      (fun y hy => (List.pairwise_cons.mp hp).1 y ((List.mem_insertionSort msgGE).mp hy))

/-- C6 counterexample: two messages of the pair share `createdAt = 5`;
`findConversation` returns the earlier-inserted `demoMsgA` (id 0) first, not
the later-inserted `demoMsgB` (id 1) — the sort has no insertion-sequence
tiebreak placing the later insert first. -/
theorem findConversation_tie_insertion_order_first :
    Store.findConversation ⟨[demoMsgA, demoMsgB], 2⟩ 1 2 50 0 = [demoMsgA, demoMsgB] ∧
    demoMsgA.createdAt = demoMsgB.createdAt ∧ demoMsgA.id < demoMsgB.id ∧
    ¬ (Store.findConversation ⟨[demoMsgA, demoMsgB], 2⟩ 1 2 50 0 = [demoMsgB, demoMsgA]) := by
  decide

/-- C6 amended: `findConversation` sorts by `createdAt` alone (a stable
sort); the slice is reverse-chronological and `createdAt` ties appear in
insertion order — the earlier-inserted (smaller id) message first, not the
later-inserted one. -/
theorem findConversation_sorted_desc_stable
    (s : Store) (a b limit skip : Nat)
    (h : s.docs.Pairwise (fun m1 m2 => m1.id < m2.id)) :
    (s.findConversation a b limit skip).Pairwise msgBefore := by
  have h1 : (s.docs.filter (betweenPair a b)).Pairwise (fun m1 m2 => m1.id < m2.id) :=
    h.filter _
  have h2 := pairwise_sort_msgBefore _ h1
  unfold Store.findConversation
  exact List.Pairwise.sublist (List.take_sublist _ _)
    (List.Pairwise.sublist (List.drop_sublist _ _) h2)

/-- Witness for C6's amended theorem on the concrete two-message store. -/
theorem findConversation_sorted_desc_stable_witness :
    (Store.findConversation ⟨[demoMsgA, demoMsgB], 2⟩ 1 2 50 0).Pairwise msgBefore :=
  findConversation_sorted_desc_stable ⟨[demoMsgA, demoMsgB], 2⟩ 1 2 50 0 (by decide)

/-! ### C7 -/

theorem dropWhile_dropWhile (p : Char → Bool) :
    ∀ l : List Char, (l.dropWhile p).dropWhile p = l.dropWhile p
  | [] => rfl
  | x :: xs => by
    by_cases h : p x
    · simp only [List.dropWhile_cons, h, if_true]
      exact dropWhile_dropWhile p xs
    · simp [List.dropWhile_cons, h]

theorem dropWhile_head_false (p : Char → Bool) :
    ∀ (l : List Char) (x : Char) (xs : List Char), l.dropWhile p = x :: xs → p x = false
  | [], x, xs, h => by simp at h
  | y :: ys, x, xs, h => by
    by_cases hy : p y
    · rw [List.dropWhile_cons, if_pos hy] at h
      exact dropWhile_head_false p ys x xs h
    · rw [List.dropWhile_cons, if_neg hy] at h
      injection h with h1 h2
      rw [← h1]
      simpa using hy

theorem exists_dropWhile_append (p : Char → Bool) :
    ∀ l : List Char, ∃ t, l = t ++ l.dropWhile p
  | [] => ⟨[], rfl⟩
  | x :: xs => by
    by_cases h : p x
    · obtain ⟨t, ht⟩ := exists_dropWhile_append p xs
      refine ⟨x :: t, ?_⟩
      rw [List.dropWhile_cons, if_pos h, List.cons_append, ← ht]
    · exact ⟨[], by rw [List.dropWhile_cons, if_neg h, List.nil_append]⟩

theorem trimChars_idem (l : List Char) : trimChars (trimChars l) = trimChars l := by
  obtain ⟨t, ht⟩ :=
    exists_dropWhile_append Char.isWhitespace (l.dropWhile Char.isWhitespace).reverse
  have hA : l.dropWhile Char.isWhitespace = trimChars l ++ t.reverse := by
    have h2 := congrArg List.reverse ht
    rw [List.reverse_append] at h2
    simpa [trimChars] using h2
  rcases hcons : trimChars l with _ | ⟨x, xs⟩
  · rfl
  · have hx : Char.isWhitespace x = false := by
      have hAeq : l.dropWhile Char.isWhitespace = x :: (xs ++ t.reverse) := by
        rw [hA, hcons, List.cons_append]
      exact dropWhile_head_false Char.isWhitespace l x (xs ++ t.reverse) hAeq
    have hrevD : (x :: xs).reverse =
        (l.dropWhile Char.isWhitespace).reverse.dropWhile Char.isWhitespace := by
      rw [← hcons]
      simp [trimChars]
    have hD : ((x :: xs).reverse).dropWhile Char.isWhitespace = (x :: xs).reverse := by
      rw [hrevD]
      exact dropWhile_dropWhile _ _
    unfold trimChars
    rw [List.dropWhile_cons, if_neg (by simp [hx]), hD, List.reverse_reverse]

theorem jsTrim_idem (s : String) : jsTrim (jsTrim s) = jsTrim s :=
  congrArg String.mk (trimChars_idem s.data)

theorem validateChatMessage_none_iff (m : ChatMessage) (hm : jsTrim m.message = m.message) :
    validateChatMessage m = none ↔
      (m.message.length ≠ 0 ∧ m.message.length ≤ 2000 ∧
       (∀ a ∈ m.attachments, validAttachmentUrl a = true) ∧
       ((m.messageType = MessageType.image ∨ m.messageType = MessageType.file) →
         ¬ (m.attachments = [])) ∧
       ¬ (m.senderId = m.receiverId)) := by
  unfold validateChatMessage
  by_cases h1 : m.message.length = 0
  · rw [if_pos h1]
    simp [h1]
  · rw [if_neg h1]
    by_cases h2 : 2000 < m.message.length
    · rw [if_pos h2]
      constructor
      · intro h
        simp at h
      · rintro ⟨-, hle, -, -, -⟩
        exact absurd hle (by omega)
    · rw [if_neg h2]
      by_cases h3 : (!(m.attachments.all validAttachmentUrl)) = true
      · rw [if_pos h3]
        constructor
        · intro h
          simp at h
        · rintro ⟨-, -, hall, -, -⟩
          rw [List.all_eq_true.mpr hall] at h3
          simp at h3
      · rw [if_neg h3]
        by_cases h4 : m.messageType = MessageType.text ∧ (jsTrim m.message).length = 0
        · rw [if_pos h4]
          rw [hm] at h4
          exact absurd h4.2 h1
        · rw [if_neg h4]
          by_cases h5 : (m.messageType = MessageType.image ∨
              m.messageType = MessageType.file) ∧ m.attachments = []
          · rw [if_pos h5]
            constructor
            · intro h
              simp at h
            · rintro ⟨-, -, -, himp, -⟩
              exact absurd h5.2 (himp h5.1)
          · rw [if_neg h5]
            by_cases h6 : m.senderId = m.receiverId
            · rw [if_pos h6]
              constructor
              · intro h
                simp at h
              · rintro ⟨-, -, -, -, hne⟩
                exact absurd h6 hne
            · rw [if_neg h6]
              exact ⟨fun _ => ⟨h1, Nat.le_of_not_lt h2,
                List.all_eq_true.mp (by simpa using h3),
                fun him hemp => h5 ⟨him, hemp⟩, h6⟩, fun _ => rfl⟩

/-- C7 counterexample: an image message with a non-empty attachment list and
an empty body is rejected — the `required` option on `message` refuses the
empty string — whereas the claim says it is accepted and persisted. -/
theorem append_empty_body_image_rejected :
    Store.append ⟨[], 0⟩ 1 2 "" MessageType.image [r"http://a.com/x"] 5 =
      Except.error SaveError.messageRequired ∧
    (Store.append ⟨[], 0⟩ 1 2 "" MessageType.image [r"http://a.com/x"] 5).isOk = false :=
  ⟨rfl, rfl⟩

/-- C7 amended: `append` persists a message exactly when the trimmed body is
non-empty (for every kind — an empty body is never accepted, image/file
included), the trimmed body has at most 2000 characters, every attachment is
an http(s) URL, image/file messages carry at least one attachment, and the
sender differs from the receiver; otherwise it fails with a validation error
and persists nothing. -/
theorem append_ok_iff_valid
    (s : Store) (sender receiver : Nat) (body : String) (mt : MessageType)
    (atts : List String) (now : Nat) :
    (∃ r, s.append sender receiver body mt atts now = Except.ok r) ↔
      ((jsTrim body).length ≠ 0 ∧ (jsTrim body).length ≤ 2000 ∧
       (∀ a ∈ atts, validAttachmentUrl a = true) ∧
       ((mt = MessageType.image ∨ mt = MessageType.file) → ¬ (atts = [])) ∧
       ¬ (sender = receiver)) := by
  have hiff := validateChatMessage_none_iff
    { id := s.nextId, senderId := sender, receiverId := receiver,
      message := jsTrim body, messageType := mt, attachments := atts,
      isRead := false, readAt := none, createdAt := now } (jsTrim_idem body)
  constructor
  · rintro ⟨r, hr⟩
    unfold Store.append at hr
    cases hv : validateChatMessage
        { id := s.nextId, senderId := sender, receiverId := receiver,
          message := jsTrim body, messageType := mt, attachments := atts,
          isRead := false, readAt := none, createdAt := now } with
    | some e =>
      simp only [hv] at hr
      exact absurd hr (by simp)
    | none =>
      exact hiff.mp hv
  · intro hrhs
    have hv := hiff.mpr hrhs
    exact ⟨_, by unfold Store.append; simp only [hv]; rfl⟩

/-- Witness for C7's amended theorem: a concrete valid text message is
accepted through the iff. -/
theorem append_ok_iff_valid_witness :
    ∃ r, Store.append ⟨[], 0⟩ 1 2 "hola" MessageType.text [] 5 = Except.ok r :=
  (append_ok_iff_valid ⟨[], 0⟩ 1 2 "hola" MessageType.text [] 5).mpr (by decide)

/-! ### C8 -/

theorem find?_pairwise_rel {α : Type} {R : α → α → Prop} {q : α → Bool} :
    ∀ {l : List α} {a : α}, l.Pairwise R → l.find? q = some a →
      ∀ b ∈ l, q b = true → a = b ∨ R a b := by
  intro l
  induction l with
  | nil =>
    intro a _ hfind
    simp at hfind
  | cons x xs ih =>
    intro a hp hfind b hb hqb
    by_cases hx : q x
    · rw [List.find?_cons_of_pos _ hx] at hfind
      injection hfind with ha
      rcases List.mem_cons.mp hb with rfl | hb2
      · exact Or.inl ha.symm
      · exact Or.inr (ha ▸ (List.pairwise_cons.mp hp).1 b hb2)
    · rw [List.find?_cons_of_neg _ hx] at hfind
      rcases List.mem_cons.mp hb with rfl | hb2
      · rw [hqb] at hx
        exact absurd rfl hx
      · exact ih (List.pairwise_cons.mp hp).2 hfind b hb2 hqb

theorem mem_firstOccs : ∀ (l : List Nat) (p : Nat), p ∈ firstOccs l ↔ p ∈ l
  | [], p => by simp [firstOccs]
  | x :: xs, p => by
    rw [firstOccs]
    by_cases h : p = x
    · subst h
      simp
    · simp only [List.mem_cons, List.mem_filter]
      constructor
      · rintro (rfl | ⟨hp, -⟩)
        · exact Or.inl rfl
        · exact Or.inr ((mem_firstOccs xs p).mp hp)
      · rintro (rfl | hp)
        · exact Or.inl rfl
        · exact Or.inr ⟨(mem_firstOccs xs p).mpr hp, by simpa using h⟩

theorem nodup_firstOccs : ∀ l : List Nat, (firstOccs l).Nodup
  | [] => List.nodup_nil
  | x :: xs => by
    rw [firstOccs]
    refine List.nodup_cons.mpr ⟨?_, List.Nodup.filter _ (nodup_firstOccs xs)⟩
    intro hx
    have h2 := (List.mem_filter.mp hx).2
    simp at h2

theorem nodup_map_filterMap {α β : Type} (f : α → Option β) (key : β → α)
    (hf : ∀ a b, f a = some b → key b = a) :
    ∀ l : List α, l.Nodup → ((l.filterMap f).map key).Nodup
  | [], _ => List.nodup_nil
  | x :: xs, h => by
    rw [List.filterMap_cons]
    cases hfx : f x with
    | none => exact nodup_map_filterMap f key hf xs (List.nodup_cons.mp h).2
    | some b =>
      rw [List.map_cons]
      refine List.nodup_cons.mpr
        ⟨?_, nodup_map_filterMap f key hf xs (List.nodup_cons.mp h).2⟩
      intro hmem
      rw [List.mem_map] at hmem
      obtain ⟨b2, hb2, hkeq⟩ := hmem
      rw [List.mem_filterMap] at hb2
      obtain ⟨a2, ha2, hfa2⟩ := hb2
      have h1 : key b = x := hf x b hfx
      have h2 : key b2 = a2 := hf a2 b2 hfa2
      have ha2x : a2 = x := by rw [← h2, hkeq, h1]
      rw [ha2x] at ha2
      exact (List.nodup_cons.mp h).1 ha2

theorem convEntry_some {docs : List ChatMessage} {users : List User}
    {userId p : Nat} {e : ConversationSummary}
    (h : convEntry docs users userId p = some e) :
    e.partnerId = p ∧ (findUser users p).isSome = true ∧
    (sortByCreatedAtDesc (docs.filter (involves userId))).find?
      (fun m => partnerOf userId m == p) = some e.lastMessage ∧
    e.unreadCount = ((docs.filter (involves userId)).filter (fun m =>
      partnerOf userId m == p && m.receiverId == userId &&
        m.isRead == false)).length := by
  unfold convEntry at h
  cases hu : findUser users p with
  | none =>
    simp only [hu] at h
    exact absurd h (by simp)
  | some u =>
    cases hf : (sortByCreatedAtDesc (docs.filter (involves userId))).find?
        (fun m => partnerOf userId m == p) with
    | none =>
      simp only [hu, hf] at h
      exact absurd h (by simp)
    | some lm =>
      simp only [hu, hf, Option.some.injEq] at h
      refine ⟨by rw [← h], rfl, by rw [← h], by rw [← h]⟩

theorem unread_filter_eq (docs : List ChatMessage) (uid p : Nat) :
    ((docs.filter (involves uid)).filter (fun m =>
        partnerOf uid m == p && m.receiverId == uid && m.isRead == false)).length =
      (docs.filter (fun m =>
        m.senderId == p && m.receiverId == uid && m.isRead == false)).length := by
  rw [List.filter_filter]
  congr 1
  apply List.filter_congr
  intro m _
  by_cases hr : m.receiverId = uid
  · by_cases hs : m.senderId = uid
    · simp [partnerOf, involves, hs, hr]
    · have hbs : (m.senderId == uid) = false := by simpa using hs
      simp [partnerOf, involves, hbs, hr]
  · have hbr : (m.receiverId == uid) = false := by simpa using hr
    simp [partnerOf, involves, hbr]

/-- C8 counterexample: user 1 has exchanged a message with partner 2, but
partner 2 has no user document, so the `$lookup`/`$unwind` stage drops the
whole conversation — the result is empty and carries no summary for
partner 2, contrary to the claim's "for each distinct partner". -/
theorem recentConversations_missing_partner_dropped :
    getRecentConversations [demoMsgA] [demoTrainer] 1 10 = [] ∧
    involves 1 demoMsgA = true ∧ partnerOf 1 demoMsgA = 2 ∧
    findUser [demoTrainer] 2 = none := by
  decide

/-- C8 amended: for each distinct partner the user has exchanged messages
with that exists in the user store, `getRecentConversations` returns one
summary whose `lastMessage` is a most-recent message of the pair and whose
`unreadCount` counts the pair's unread messages addressed to the user;
summaries are sorted by last-message `createdAt` descending, partners are
pairwise distinct, at most `limit` entries are returned, and (when the limit
does not truncate) every qualifying partner with a user document appears. -/
theorem recentConversations_summary_correct
    (docs : List ChatMessage) (users : List User) (uid limit : Nat) :
    (getRecentConversations docs users uid limit).length ≤ limit ∧
    (getRecentConversations docs users uid limit).Pairwise summGE ∧
    ((getRecentConversations docs users uid limit).map ConversationSummary.partnerId).Nodup ∧
    (∀ e ∈ getRecentConversations docs users uid limit,
      (findUser users e.partnerId).isSome = true ∧
      e.lastMessage ∈ docs ∧
      involves uid e.lastMessage = true ∧
      partnerOf uid e.lastMessage = e.partnerId ∧
      (∀ m ∈ docs, involves uid m = true → partnerOf uid m = e.partnerId →
        m.createdAt ≤ e.lastMessage.createdAt) ∧
      e.unreadCount = (docs.filter (fun m =>
        m.senderId == e.partnerId && m.receiverId == uid &&
          m.isRead == false)).length) ∧
    ((getRecentConversations docs users uid limit).length < limit →
      ∀ p, (findUser users p).isSome = true →
        (∃ m ∈ docs, involves uid m = true ∧ partnerOf uid m = p) →
        ∃ e ∈ getRecentConversations docs users uid limit, e.partnerId = p) := by
  refine ⟨?_, ?_, ?_, ?_, ?_⟩
  · rw [getRecentConversations, List.length_take]
    exact Nat.min_le_left _ _
  · unfold getRecentConversations
    exact List.Pairwise.sublist (List.take_sublist _ _)
      (List.sorted_insertionSort summGE _)
  · unfold getRecentConversations
    have hnE : ((convEntries docs users uid).map ConversationSummary.partnerId).Nodup :=
      nodup_map_filterMap (convEntry docs users uid) ConversationSummary.partnerId
        (fun a b hab => (convEntry_some hab).1) _ (nodup_firstOccs _)
    have hperm := List.perm_insertionSort summGE (convEntries docs users uid)
    have hnS : (((convEntries docs users uid).insertionSort summGE).map
        ConversationSummary.partnerId).Nodup :=
      ((hperm.map ConversationSummary.partnerId).nodup_iff).mpr hnE
    exact List.Nodup.sublist ((List.take_sublist _ _).map _) hnS
  · intro e he
    unfold getRecentConversations at he
    have he2 : e ∈ (convEntries docs users uid).insertionSort summGE :=
      (List.take_sublist _ _).subset he
    have he3 : e ∈ convEntries docs users uid :=
      (List.perm_insertionSort summGE _).mem_iff.mp he2
    rw [convEntries, List.mem_filterMap] at he3
    obtain ⟨p, hpmem, hce⟩ := he3
    obtain ⟨hkey, hus, hfind, hcount⟩ := convEntry_some hce
    have hlm_sorted : e.lastMessage ∈ sortByCreatedAtDesc (docs.filter (involves uid)) :=
      List.mem_of_find?_eq_some hfind
    have hlm_mine : e.lastMessage ∈ docs.filter (involves uid) :=
      (List.mem_insertionSort msgGE).mp hlm_sorted
    have hq := List.find?_some hfind
    refine ⟨by rw [hkey]; exact hus, List.mem_of_mem_filter hlm_mine,
      (List.mem_filter.mp hlm_mine).2, ?_, ?_, ?_⟩
    · rw [hkey]
      simpa using hq
    · intro m hm hinv hpart
      have hm_mine : m ∈ docs.filter (involves uid) := List.mem_filter.mpr ⟨hm, hinv⟩
      have hm_sorted : m ∈ sortByCreatedAtDesc (docs.filter (involves uid)) :=
        (List.mem_insertionSort msgGE).mpr hm_mine
      have hqm : (fun m2 => partnerOf uid m2 == p) m = true := by
        simp [hpart, hkey]
      have hrel := find?_pairwise_rel (List.sorted_insertionSort msgGE _) hfind m
        hm_sorted hqm
      rcases hrel with heq | hge
      · exact Nat.le_of_eq (congrArg ChatMessage.createdAt heq.symm)
      · exact hge
    · rw [hcount, hkey]
      exact unread_filter_eq docs uid p
  · intro hlen p hup hex
    obtain ⟨m, hm, hinv, hpart⟩ := hex
    have hm_mine : m ∈ docs.filter (involves uid) := List.mem_filter.mpr ⟨hm, hinv⟩
    have hm_sorted : m ∈ sortByCreatedAtDesc (docs.filter (involves uid)) :=
      (List.mem_insertionSort msgGE).mpr hm_mine
    have hpmem : p ∈ firstOccs ((sortByCreatedAtDesc (docs.filter (involves uid))).map
        (partnerOf uid)) := by
      rw [mem_firstOccs, List.mem_map]
      exact ⟨m, hm_sorted, hpart⟩
    have hfindSome : ((sortByCreatedAtDesc (docs.filter (involves uid))).find?
        (fun m2 => partnerOf uid m2 == p)).isSome := by
      rw [List.find?_isSome]
      exact ⟨m, hm_sorted, by simp [hpart]⟩
    obtain ⟨lm, hflm⟩ := Option.isSome_iff_exists.mp hfindSome
    obtain ⟨u, hu⟩ := Option.isSome_iff_exists.mp hup
    have hceE : ∃ E, convEntry docs users uid p = some E := by
      simp only [convEntry, hu, hflm]
      exact ⟨_, rfl⟩
    obtain ⟨E, hce⟩ := hceE
    have hmemE : E ∈ convEntries docs users uid := by
      rw [convEntries]
      exact List.mem_filterMap.mpr ⟨p, hpmem, hce⟩
    have heS : E ∈ (convEntries docs users uid).insertionSort summGE :=
      (List.perm_insertionSort summGE _).mem_iff.mpr hmemE
    have hlen2 : ((convEntries docs users uid).insertionSort summGE).length < limit := by
      rw [getRecentConversations, List.length_take] at hlen
      omega
    have htake : ((convEntries docs users uid).insertionSort summGE).take limit =
        (convEntries docs users uid).insertionSort summGE :=
      List.take_of_length_le (Nat.le_of_lt hlen2)
    refine ⟨E, ?_, (convEntry_some hce).1⟩
    rw [getRecentConversations, htake]
    exact heS

/-- Witness for C8's amended theorem: with one message between 1 and the
registered client 2, the completeness clause yields the summary for
partner 2. -/
theorem recentConversations_summary_correct_witness :
    ∃ e ∈ getRecentConversations [demoMsgA] demoUsers 1 10, e.partnerId = 2 :=
  (recentConversations_summary_correct [demoMsgA] demoUsers 1 10).2.2.2.2
    (by decide) 2 (by decide) ⟨demoMsgA, by decide, by decide, by decide⟩

end TuPlan
